import Mathlib

/-!
Verification of the metrics-exporter-influx repository: a shallow embedding
of its data model (`src/data.rs`), matcher and builder (`src/matcher.rs`,
`src/builder.rs`), registry (`src/registry.rs`), recorder and render
pipeline (`src/recorder.rs`), the exporter loop and the file sink
(`src/exporter.rs`), and the HTTP sink with retry (`src/http.rs`),
together with theorems settling the specification claims.
-/

namespace MetricsExporterInflux

/-- Rust `f64` values as they appear in this crate: the codec and the
builder never perform float arithmetic, they only carry `f64` payloads
around and render them via the standard library `Display for f64`
(shortest round-trip decimal form) when encoding.  We therefore embed an
`f64` by the exact decimal string that `Display` produces for it; e.g.
the literal `1.11f64` is embedded as `⟨"1.11"⟩` and `100.0f64` as
`⟨"100"⟩`.  Distinct payloads are embedded as distinct strings. -/
structure F64 where
  repr : String
deriving DecidableEq, Repr

/-- Rust enum `MetricData` from `src/data.rs` lines 6-14.  `Timestamp`
holds a `chrono::DateTime<Utc>`, which we embed as the (possibly out of
`i64` range) integer number of nanoseconds since the Unix epoch; chrono
can represent instants far beyond the `i64`-nanosecond range (years
±262000), while `timestamp_nanos_opt` only answers inside that range. -/
inductive MetricData where
  | Float (f : F64)
  | Integer (i : ℤ)
  | UInteger (u : ℕ)
  | String (s : String)
  | Boolean (b : Bool)
  | Timestamp (t : ℤ)
deriving DecidableEq, Repr

/-- Alias for Lean's `String`, needed inside the `MetricData` namespace
where the bare name `String` denotes the constructor. -/
abbrev Str := String

/-- Rust `chrono::DateTime::timestamp_nanos_opt`: `Some` exactly when the
instant fits in `i64` nanoseconds since the epoch, `None` otherwise (the
crate calls `.unwrap()` on it, which panics on `None`). -/
def timestamp_nanos_opt (t : ℤ) : Option ℤ :=
  if -(2 ^ 63) ≤ t ∧ t < 2 ^ 63 then some t else none

/-- Rust `escape_string` from `src/data.rs` lines 163-167:
`s.replace(' ', "\\ ").replace(',', "\\,").replace('=', "\\=")`.
Because each replacement string introduces no later pattern character
(the inserted backslash is never a pattern, and the escaped character is
kept as itself), the three sequential replacements are equivalent to one
character-wise pass inserting a backslash before each space, comma and
equals sign, which is how we write it. -/
def escape_string (s : String) : String :=
  String.mk (s.data.flatMap fun c =>
    if c = ' ' ∨ c = ',' ∨ c = '=' then ['\\', c] else [c])

/-- Rust `str::replace('"', "\\\"")` as used by the `String` arm of
`Display for MetricData`: a backslash is inserted before each double
quote. -/
def escape_quotes (s : String) : String :=
  String.mk (s.data.flatMap fun c => if c = '"' then ['\\', c] else [c])

/-- Rust `impl Display for MetricData` from `src/data.rs` lines 94-110.
The result is `none` exactly when the Rust code panics, which happens
only in the `Timestamp` arm when `timestamp_nanos_opt()` returns `None`
and the code `.unwrap()`s it.  Signed and unsigned integers are both
rendered with a trailing `i`; strings are double quoted with inner
quotes escaped; booleans render as `true`/`false`. -/
def MetricData.display : MetricData → Option Str
  | .Float f => some f.repr
  | .Integer i => some (toString i ++ "i")
  | .UInteger u => some (toString u ++ "i")
  | .String s => some ("\"" ++ escape_quotes s ++ "\"")
  | .Boolean b => some (if b then "true" else "false")
  | .Timestamp t => (timestamp_nanos_opt t).map toString

/-- Rust `itertools::Itertools::join(sep)` on an iterator of strings:
the elements concatenated with the separator between consecutive
elements and nothing appended after the last one. -/
def joinSep (sep : String) : List String → String
  | [] => ""
  | [s] => s
  | s :: rest => s ++ sep ++ joinSep sep rest

/-- Rust `Ord for String` (byte-wise lexicographic on the UTF-8
encoding, which coincides with lexicographic order on the scalar-value
sequences), as a boolean `a ≤ b` on the character lists. -/
def charsLe : List Char → List Char → Bool
  | [], _ => true
  | _ :: _, [] => false
  | c :: cs, d :: ds =>
    if c.toNat < d.toNat then true
    else if d.toNat < c.toNat then false
    else charsLe cs ds

/-- Rust `itertools::Itertools::sorted_by_key(|(k, _)| *k)` on the
entries of a `HashMap` with `String` keys: a stable sort by the Rust
`String` order. -/
def sortByKey {α : Type} (l : List (String × α)) : List (String × α) :=
  List.insertionSort (fun a b => charsLe a.1.data b.1.data = true) l

/-- Rust struct `InfluxMetric` from `src/data.rs` lines 112-117.  The
two `HashMap`s are embedded as association lists with pairwise distinct
keys; their order is irrelevant to every use because the encoder sorts
entries by key before emitting them. -/
structure InfluxMetric where
  name : String
  timestamp : ℤ
  fields : List (String × MetricData)
  tags : List (String × String)
deriving DecidableEq, Repr

/-- Rust `impl Display for InfluxMetric` from `src/data.rs` lines
119-161: tags (if any) sorted by key and rendered `k=v` with both sides
escaped; fields (if any) sorted by key and rendered `escaped-key=value`;
the escaped measurement name, the comma-joined tag section (preceded by
a comma), the comma-joined field section (preceded by a space), and the
point timestamp in nanoseconds (preceded by a space).  `none` models the
panics of the two `timestamp_nanos_opt().unwrap()` calls (field values
and the final point timestamp). -/
def InfluxMetric.display (m : InfluxMetric) : Option String := do
  let tags :=
    if m.tags.isEmpty then none
    else some (joinSep "," ((sortByKey m.tags).map fun kv =>
      escape_string kv.1 ++ "=" ++ escape_string kv.2))
  let fieldEntries ← (sortByKey m.fields).mapM fun kv => do
    pure (escape_string kv.1 ++ "=" ++ (← MetricData.display kv.2))
  let fields := if m.fields.isEmpty then none else some (joinSep "," fieldEntries)
  let ts ← timestamp_nanos_opt m.timestamp
  let s := escape_string m.name
  let s := match tags with
    | some t => s ++ "," ++ t
    | none => s
  let s := match fields with
    | some f => s ++ " " ++ f
    | none => s
  pure (s ++ " " ++ toString ts)

/-- The concrete point of the line-protocol exactness claim (also the
unit test `format` in `src/data.rs` lines 174-205): name `test =metric`,
two tags containing spaces, six fields covering every `MetricData`
variant, point timestamp at the epoch.  The timestamp field holds
2020-01-01T01:01:01Z, i.e. 1577840461000000000 ns. -/
def formatTestMetric : InfluxMetric :=
  { name := "test =metric"
    timestamp := 0
    fields :=
      [ ("float", MetricData.Float ⟨"1.11"⟩)
      , ("\"int\"", MetricData.Integer (-100))
      , ("uint", MetricData.UInteger 100)
      , ("string", MetricData.String "\"metric\", 🚀")
      , ("bool", MetricData.Boolean false)
      , ("t", MetricData.Timestamp 1577840461000000000) ]
    tags :=
      [ ("tag Key1", "tag Value1")
      , ("key", "value") ] }

/-- A point whose timestamp does not fit in `i64` nanoseconds: `2 ^ 63`
ns is about year 2262, comfortably inside the range chrono can
represent, yet one past `i64::MAX`. -/
def farFutureMetric : InfluxMetric :=
  { name := "m"
    timestamp := 2 ^ 63
    fields := [("value", MetricData.Integer 1)]
    tags := [] }

/-- Timestamp values on which `timestamp_nanos_opt().unwrap()` cannot
panic: the `i64`-nanosecond range. -/
def TsInRange (t : ℤ) : Prop := -(2 ^ 63) ≤ t ∧ t < 2 ^ 63

instance (t : ℤ) : Decidable (TsInRange t) := by
  unfold TsInRange; infer_instance

/-- A field value whose rendering cannot panic: every variant except an
out-of-range `Timestamp`. -/
def FieldTsInRange : MetricData → Prop
  | .Timestamp t => TsInRange t
  | _ => True

instance (v : MetricData) : Decidable (FieldTsInRange v) := by
  cases v <;> (unfold FieldTsInRange; infer_instance)

/-- Boolean test that the first character list is a prefix of the
second (character equality is scalar-value equality, matching Rust
`str::starts_with` on the UTF-8 bytes). -/
def charsPre : List Char → List Char → Bool
  | [], _ => true
  | _ :: _, [] => false
  | p :: ps, k :: ks => decide (p = k) && charsPre ps ks

/-- Rust enum `Matcher` from `src/matcher.rs` lines 26-34. -/
inductive Matcher where
  | Full (s : String)
  | Prefix (s : String)
  | Suffix (s : String)
deriving DecidableEq, Repr

/-- Rust `Matcher::matches` from `src/matcher.rs` lines 36-45:
`starts_with` / `ends_with` / full equality on the metric name. -/
def Matcher.matches : Matcher → String → Bool
  | .Prefix p, key => charsPre p.data key.data
  | .Suffix s, key => charsPre s.data.reverse key.data.reverse
  | .Full f, key => decide (key = f)

/-- Rust enum `BuildError` from `src/builder.rs` lines 45-64 (payloads
that no claim inspects are dropped). -/
inductive BuildError where
  | InvalidEndpoint (msg : String)
  | HttpError
  | FailedToCreateRuntime (msg : String)
  | FailedToSetGlobalRecorder
  | EmptyBucketsOrQuantiles
deriving DecidableEq, Repr

/-- Rust `metrics_util::parse_quantiles` (external crate): maps each
requested quantile, one to one, to a `Quantile` carrying the value and
a derived label (`p50`, `min`, ...).  No claim inspects the labels, so
a parsed quantile is embedded as its value. -/
def parse_quantiles (quantiles : List F64) : List F64 := quantiles

/-- Rust struct `InfluxBuilder` from `src/builder.rs` lines 66-74,
restricted to the fields the claims touch (the sink configuration,
flush period and global tag/field maps are independent of the
quantile/bucket logic). -/
structure InfluxBuilder where
  quantiles : List F64
  buckets : Option (List F64)
  bucket_overrides : Option (List (Matcher × List F64))
deriving DecidableEq, Repr

/-- Rust `InfluxBuilder::new` from `src/builder.rs` lines 77-88: the
default quantile set 0, 0.5, 0.9, 0.95, 0.99, 0.999, 1 and no bucket
configuration. -/
def InfluxBuilder.new : InfluxBuilder :=
  { quantiles := parse_quantiles
      [⟨"0"⟩, ⟨"0.5"⟩, ⟨"0.9"⟩, ⟨"0.95"⟩, ⟨"0.99"⟩, ⟨"0.999"⟩, ⟨"1"⟩]
    buckets := none
    bucket_overrides := none }

/-- Rust `InfluxBuilder::with_quantiles` from `src/builder.rs` lines
90-97: an empty list is rejected with `EmptyBucketsOrQuantiles`. -/
def InfluxBuilder.with_quantiles (b : InfluxBuilder) (quantiles : List F64) :
    Except BuildError InfluxBuilder :=
  if quantiles.isEmpty then .error .EmptyBucketsOrQuantiles
  else .ok { b with quantiles := parse_quantiles quantiles }

/-- Rust `InfluxBuilder::with_buckets` from `src/builder.rs` lines
99-106: an empty list is rejected with `EmptyBucketsOrQuantiles`. -/
def InfluxBuilder.with_buckets (b : InfluxBuilder) (values : List F64) :
    Except BuildError InfluxBuilder :=
  if values.isEmpty then .error .EmptyBucketsOrQuantiles
  else .ok { b with buckets := some values }

/-- Rust `HashMap::entry(matcher).or_insert(values)`: keep an existing
entry for the matcher, otherwise add one. -/
def entryOrInsert (l : List (Matcher × List F64)) (m : Matcher) (values : List F64) :
    List (Matcher × List F64) :=
  if (l.find? fun e => decide (e.1 = m)).isSome then l else l ++ [(m, values)]

/-- Rust `InfluxBuilder::add_buckets_for_metric` from `src/builder.rs`
lines 108-123: an empty list is rejected; otherwise the override is
recorded under the matcher and — exactly as the source does on line
120 — `self.buckets` is overwritten with the override values. -/
def InfluxBuilder.add_buckets_for_metric (b : InfluxBuilder) (matcher : Matcher)
    (values : List F64) : Except BuildError InfluxBuilder :=
  if values.isEmpty then .error .EmptyBucketsOrQuantiles
  else .ok { b with
    bucket_overrides := some (entryOrInsert (b.bucket_overrides.getD []) matcher values)
    buckets := some values }

/-- Modelled from the spec: the `Distribution` aggregator of the
missing `src/distribution.rs` ("either {Histogram: ascending bucket
boundaries, ...} or {Summary: decaying quantile estimator, configured
quantile set, ...}"; "stateful aggregator turning raw (value, time)
samples into bucketed counts or quantile estimates").  The claims only
observe which boundary or quantile configuration a distribution was
built with and which raw samples have been fed into it, so the embedding
records exactly those; the derived bucket counts / quantile estimates
are not represented.  Sample timestamps are `quanta::Instant`s, embedded
as naturals. -/
inductive Distribution where
  | Histogram (buckets : List F64) (samples : List (F64 × ℕ))
  | Summary (quantiles : List F64) (samples : List (F64 × ℕ))
deriving DecidableEq, Repr

/-- Modelled from the spec: `Distribution::record_samples` feeds a batch
of raw (value, instant) samples into the aggregator. -/
def Distribution.record_samples : Distribution → List (F64 × ℕ) → Distribution
  | .Histogram b s, new => .Histogram b (s ++ new)
  | .Summary q s, new => .Summary q (s ++ new)

/-- Modelled from the spec: a fresh histogram-mode distribution over the
given boundaries. -/
def Distribution.new_histogram (buckets : List F64) : Distribution :=
  .Histogram buckets []

/-- Modelled from the spec: a fresh summary-mode distribution over the
given quantile set. -/
def Distribution.new_summary (quantiles : List F64) : Distribution :=
  .Summary quantiles []

/-- Modelled from the spec: the `DistributionBuilder` of the missing
`src/distribution.rs`, holding "a non-empty default quantile set, an
optional default bucket-boundary list (its absence means summary mode
for unmatched names), and an ordered list of (matcher, boundary-list)
overrides". -/
structure DistributionBuilder where
  quantiles : List F64
  buckets : Option (List F64)
  bucket_overrides : Option (List (Matcher × List F64))
deriving DecidableEq, Repr

/-- Rust `InfluxBuilder::build_recorder` from `src/builder.rs` lines
215-230, restricted to the construction
`DistributionBuilder::new(self.quantiles, self.buckets,
self.bucket_overrides)` feeding the recorder. -/
def InfluxBuilder.distribution_builder (b : InfluxBuilder) : DistributionBuilder :=
  { quantiles := b.quantiles
    buckets := b.buckets
    bucket_overrides := b.bucket_overrides }

/-- Modelled from the spec: `DistributionBuilder::get_distribution`
("override lookup tries entries in registration order, first match
wins"; a matched name gets a histogram over the override boundaries,
an unmatched name gets a histogram over the default boundaries when
those are configured and a summary otherwise; "the decision is cached
per metric name" — caching returns the same decision, so it is elided
here). -/
def DistributionBuilder.get_distribution (d : DistributionBuilder) (name : String) :
    Distribution :=
  match (d.bucket_overrides.getD []).find? (fun e => e.1.matches name) with
  | some e => Distribution.new_histogram e.2
  | none =>
    match d.buckets with
    | some b => Distribution.new_histogram b
    | none => Distribution.new_summary d.quantiles

/-- User-visible bucket/quantile configuration calls on the builder,
used to reason about every configuration sequence. -/
inductive BuilderOp where
  | withQuantiles (qs : List F64)
  | withBuckets (vs : List F64)
  | addBucketsForMetric (m : Matcher) (vs : List F64)

/-- Applies one configuration call. -/
def applyOp (b : InfluxBuilder) : BuilderOp → Except BuildError InfluxBuilder
  | .withQuantiles qs => b.with_quantiles qs
  | .withBuckets vs => b.with_buckets vs
  | .addBucketsForMetric m vs => b.add_buckets_for_metric m vs

/-- Applies a sequence of configuration calls to `InfluxBuilder::new`,
stopping at the first configuration error (the `?` operator in user
code). -/
def applyOps (ops : List BuilderOp) : Except BuildError InfluxBuilder :=
  ops.foldlM applyOp InfluxBuilder.new

/-- Every quantile or bucket list held by the builder is non-empty. -/
def BucketsInv (b : InfluxBuilder) : Prop :=
  b.quantiles ≠ [] ∧ (∀ bs, b.buckets = some bs → bs ≠ []) ∧
    ∀ ov ∈ b.bucket_overrides.getD [], ov.2 ≠ []

/-- The distribution handed to the render path has a non-empty
boundary list (histogram mode) or a non-empty quantile set (summary
mode). -/
def DistNonempty : Distribution → Prop
  | .Histogram bs _ => bs ≠ []
  | .Summary qs _ => qs ≠ []

/-- Rust `AtomicBucketInstant<f64>` from `src/registry.rs` lines 49-60:
a lock-free `AtomicBucket` of `(value, Instant)` samples, embedded as
the list of samples it currently holds (the claims never depend on the
order of samples within the bucket). -/
structure AtomicBucketInstant where
  inner : List (F64 × ℕ)
deriving DecidableEq, Repr

/-- Rust `impl HistogramFn for AtomicBucketInstant<f64>` from
`src/registry.rs` lines 71-76: `record` pushes `(value, Instant::now())`
onto the bucket. -/
def AtomicBucketInstant.record (b : AtomicBucketInstant) (value : F64) (now : ℕ) :
    AtomicBucketInstant :=
  ⟨b.inner ++ [(value, now)]⟩

/-- Rust `AtomicBucketInstant::record_samples` from `src/registry.rs`
lines 62-69:
`self.inner.data_with(|samples| distribution.record_samples(samples))`.
`AtomicBucket::data_with` reads the samples currently held and leaves
the bucket contents in place (`clear_with` would be the variant that
takes them out); the call therefore returns the fed distribution
together with an unchanged bucket. -/
def AtomicBucketInstant.record_samples (b : AtomicBucketInstant)
    (distribution : Distribution) : Distribution × AtomicBucketInstant :=
  (distribution.record_samples b.inner, b)

/-- Rust `metrics::Key` (external facade crate): a metric name plus the
ordered list of labels attached at the call site; equality is over the
full content. -/
structure Key where
  name : String
  labels : List (String × String)
deriving DecidableEq, Repr

/-- Rust `HashMap::insert` on a map embedded as an association list
with pairwise distinct keys: replace the value under an existing key,
otherwise add the binding. -/
def hmInsert {α : Type} : List (String × α) → String → α → List (String × α)
  | [], k, v => [(k, v)]
  | kv :: rest, k, v =>
    if kv.1 = k then (k, v) :: rest else kv :: hmInsert rest k v

/-- Rust `HashMap` lookup on the association-list embedding. -/
def hmGet {α : Type} : List (String × α) → String → Option α
  | [], _ => none
  | kv :: rest, k => if kv.1 = k then some kv.2 else hmGet rest k

/-- Rust `parse_labels` from `src/recorder.rs` lines 321-340: fold the
per-call labels over the pair (global tags, global fields).  A label
whose key starts with `field:` inserts its stripped key into the fields
with the value wrapped as `MetricData::String`; a label whose key
starts with `tag:` inserts its stripped key into the tags; any other
label inserts its key unchanged into the tags.  `str::strip_prefix` is
written as the character-level test `charsPre` plus a drop of the
pattern length (the two patterns are ASCII, so character counts equal
byte counts). -/
def parse_labels (global_tags : List (String × String))
    (global_fields : List (String × MetricData))
    (labels : List (String × String)) :
    List (String × String) × List (String × MetricData) :=
  labels.foldl (fun tf label =>
    if charsPre "field:".data label.1.data then
      (tf.1, hmInsert tf.2 (String.mk (label.1.data.drop 6)) (MetricData.String label.2))
    else if charsPre "tag:".data label.1.data then
      (hmInsert tf.1 (String.mk (label.1.data.drop 4)) label.2, tf.2)
    else
      (hmInsert tf.1 label.1 label.2, tf.2)) (global_tags, global_fields)

/-- The slice of the Rust `Inner` registry state (`src/recorder.rs`
lines 50-56) that the counter/gauge render path reads: the counter
cells (`AtomicU64`, embedded as naturals below `2^64`), the gauge cells
(an `AtomicU64` holding an `f64` bit pattern; the `to_bits`/`from_bits`
round trip through the cell is the identity on the float, so the cell
is embedded as the stored float), and the `counter_registrations` side
set of keys first registered since the last render (a `HashSet`,
embedded as a duplicate-free list in insertion order). -/
structure RecorderState where
  counters : List (Key × ℕ)
  gauges : List (Key × F64)
  counter_registrations : List Key
deriving DecidableEq, Repr

/-- The registry of a freshly built recorder: no cells, no pending
registrations. -/
def RecorderState.forNew : RecorderState :=
  { counters := [], gauges := [], counter_registrations := [] }

/-- Rust `InfluxRecorder::register_counter` from `src/recorder.rs`
lines 133-148: under the `counter_registrations` lock, if the registry
already holds a counter cell for the key the call just returns its
handle; otherwise the key is added to the side set and a fresh cell
(initialised to 0) is created. -/
def register_counter (s : RecorderState) (key : Key) : RecorderState :=
  if (s.counters.find? fun kv => decide (kv.1 = key)).isSome then s
  else
    { s with
      counter_registrations :=
        if key ∈ s.counter_registrations then s.counter_registrations
        else s.counter_registrations ++ [key]
      counters := s.counters ++ [(key, 0)] }

/-- Rust `Counter::increment` on the handle returned by the registry:
an `AtomicU64::fetch_add`, which wraps modulo `2^64`. -/
def counter_increment (s : RecorderState) (key : Key) (amount : ℕ) : RecorderState :=
  { s with
    counters := s.counters.map fun kv =>
      if kv.1 = key then (kv.1, (kv.2 + amount) % 2 ^ 64) else kv }

/-- The pairwise distinct keys of a sample list in order of first
occurrence. -/
def dedupKeys : List (Key × MetricData) → List Key
  | [] => []
  | kv :: rest => kv.1 :: dedupKeys (rest.filter fun x => decide (x.1 ≠ kv.1))
  termination_by l => l.length
  decreasing_by
    simp only [List.length_cons]
    exact Nat.lt_succ_of_le (List.length_filter_le _ _)

/-- Rust `itertools::into_group_map_by(|(k, _)| k)`: the values grouped
by key, each group in encounter order.  The `HashMap` it returns has
an unspecified group iteration order; the embedding fixes
first-occurrence order, which no claim is sensitive to. -/
def groupMapBy (l : List (Key × MetricData)) : List (Key × List MetricData) :=
  (dedupKeys l).map fun k => (k, (l.filter fun kv => decide (kv.1 = k)).map (·.2))

/-- Rust `InfluxHandle::render`, counter/gauge part, from
`src/recorder.rs` lines 168-197 and 272-302: read every gauge (bit
pattern back to float) and every counter, drain the
`counter_registrations` set into zero-valued `Integer` points, chain
gauges, registrations and counters in that order, group by key, and for
each group take `Utc::now()` (embedded as `now key`, in nanoseconds),
reverse the group so the newest value comes first, and emit one point
per value whose timestamp is pushed back by one millisecond (`10^6` ns)
per duplicate index; each point carries the merged labels of the key
plus a `value` field.  Each emitted point is paired with the registry
key it came from (the key is in scope in the source closure); the
returned state has the registration set cleared (`src/recorder.rs`
line 186). -/
def render_points (s : RecorderState)
    (global_tags : List (String × String))
    (global_fields : List (String × MetricData))
    (now : Key → ℤ) : List (Key × InfluxMetric) :=
  let gauges := s.gauges.map fun kv => (kv.1, MetricData.Float kv.2)
  let registrations := s.counter_registrations.map fun k => (k, MetricData.Integer 0)
  let counters := s.counters.map fun kv => (kv.1, MetricData.UInteger kv.2)
  (groupMapBy (gauges ++ registrations ++ counters)).flatMap fun g =>
    (g.2.reverse.enum).map fun iv =>
      (g.1,
        { name := g.1.name
          timestamp := now g.1 - iv.1 * 1000000
          fields := hmInsert (parse_labels global_tags global_fields g.1.labels).2
            "value" iv.2
          tags := (parse_labels global_tags global_fields g.1.labels).1 })

/-- The full counter/gauge render step: the emitted points together
with the post-render registry state, whose registration set has been
cleared. -/
def render_counter_gauge (s : RecorderState)
    (global_tags : List (String × String))
    (global_fields : List (String × MetricData))
    (now : Key → ℤ) : List (Key × InfluxMetric) × RecorderState :=
  (render_points s global_tags global_fields now,
    { s with counter_registrations := [] })

/-- No two points of one render batch that came from the same registry
key carry an identical timestamp. -/
def SameKeyDistinctTs (pts : List (Key × InfluxMetric)) : Prop :=
  List.Pairwise (fun p q => p.1 = q.1 → p.2.timestamp ≠ q.2.timestamp) pts

/-- Observable events of the exporter scheduling loop
(`src/exporter.rs` lines 12-21): an interval tick being awaited, a
`write()` call (with its success flag), and the error log emitted when
a `write()` fails. -/
inductive RunEvent where
  | tick
  | writeCall (ok : Bool)
  | logWriteError
deriving DecidableEq, Repr

/-- The event trace of the loop body of `InfluxExporter::run`
(`src/exporter.rs` lines 15-20) over a finite prefix of loop
iterations: each iteration awaits a tick, calls `write()`, and on
failure logs the error and keeps looping.  The i-th element of
`outcomes` is whether the i-th `write()` succeeds. -/
def loopTrace : List Bool → List RunEvent
  | [] => []
  | o :: rest =>
    RunEvent.tick :: RunEvent.writeCall o ::
      ((if o then [] else [RunEvent.logWriteError]) ++ loopTrace rest)

/-- Rust `InfluxExporter::run` from `src/exporter.rs` lines 12-21 as an
event trace: the first tick of the freshly created interval timer is
consumed and discarded before the loop ("first tick completes
immediately, skip it", line 14), then the loop body runs. -/
def InfluxExporter.run (outcomes : List Bool) : List RunEvent :=
  RunEvent.tick :: loopTrace outcomes

/-- Selects the `write()` call events of a trace. -/
def isWriteCall : RunEvent → Bool
  | .writeCall _ => true
  | _ => false

/-- Selects the write-failure log events of a trace. -/
def isWriteFailureLog : RunEvent → Bool
  | .logWriteError => true
  | _ => false

/-- Rust `itertools sorted()` over the encoded lines in
`InfluxHandle::render` (`src/recorder.rs` line 311): a stable
lexicographic sort in the Rust `String` order. -/
def sortedLines (lines : List String) : List String :=
  List.insertionSort (fun a b => charsLe a.data b.data = true) lines

/-- Rust `InfluxHandle::render`, final assembly, from
`src/recorder.rs` lines 304-313: the count is the number of collected
points, and the text is the encoded lines sorted lexicographically and
joined with a single newline (no trailing newline).  The
sort-by-timestamp on line 309 happens before the lines are encoded and
only permutes the input of the final lexicographic sort, which makes it
irrelevant to the output; the function therefore takes the encoded
lines as input. -/
def render_join (metricLines : List String) : ℕ × String :=
  (metricLines.length, joinSep "\n" (sortedLines metricLines))

/-- Rust `InfluxFileExporter::write` from `src/exporter.rs` lines
37-45: render, and when the count is positive append the text verbatim
(`write_all(metrics.as_bytes())`) to the writer under its exclusive
lock; the subsequent `clear()` touches the registry, not the output
stream, and a zero count writes nothing. -/
def InfluxFileExporter.write (out : String) (rendered : ℕ × String) : String :=
  if 0 < rendered.1 then out ++ rendered.2 else out

/-- Outcome of one HTTP send attempt in
`InfluxHttpExporter::write` (`src/http.rs` lines 74-88): a 2xx
response, a response with an error status (`Err((e, Some(resp)))`), or
a transport failure with no response (`Err((e, None))`); the retry
wrapper treats both error variants as retryable. -/
inductive SendOutcome where
  | success
  | statusError
  | transportError
deriving DecidableEq, Repr

/-- Rust `FibonacciBackoff::from_millis(500).take(3)` (`src/http.rs`
line 74): the bounded sequence of backoff delays slept between
retries — three retries after the initial attempt. -/
def fibonacciBackoffDelays : List ℕ := [500, 500, 1000]

/-- Rust `tokio_retry::Retry::spawn`: run the action; on an error
consume the next backoff delay and retry, and when the delay sequence
is exhausted return the last error.  Returns the total number of
attempts made together with the final outcome. -/
def retrySpawn (action : ℕ → SendOutcome) : List ℕ → ℕ → ℕ × SendOutcome
  | delays, attempt =>
    let o := action attempt
    if o = SendOutcome.success then (attempt + 1, o)
    else
      match delays with
      | [] => (attempt + 1, o)
      | _ :: rest => retrySpawn action rest (attempt + 1)

/-- The observable effects of one `InfluxHttpExporter::write` call: how
many send attempts were made, which batch bodies the server accepted,
how often the registry was cleared, and whether a terminal failure was
logged. -/
structure WriteEffects where
  attempts : ℕ
  delivered : List String
  cleared : ℕ
  terminalFailureLogged : Bool
deriving DecidableEq, Repr

/-- Rust `InfluxHttpExporter::write` from `src/http.rs` lines 70-123:
when the rendered count is positive, POST the body under the bounded
retry policy; a final success logs the response at debug level, a final
failure logs the error and the batch at error level
(`terminalFailureLogged`) and drops the batch.  The body travels with
every attempt; it is accepted (delivered) exactly when the final
attempt succeeds.  No branch of the source calls `handle.clear()`, so
`cleared` is 0 throughout.  A zero count short-circuits with no
request. -/
def InfluxHttpExporter.write (rendered : ℕ × String)
    (transport : ℕ → SendOutcome) : WriteEffects :=
  if 0 < rendered.1 then
    let r := retrySpawn transport fibonacciBackoffDelays 0
    match r.2 with
    | .success =>
      { attempts := r.1, delivered := [rendered.2], cleared := 0
        terminalFailureLogged := false }
    | _ =>
      { attempts := r.1, delivered := [], cleared := 0
        terminalFailureLogged := true }
  else
    { attempts := 0, delivered := [], cleared := 0, terminalFailureLogged := false }

/-- A transport that fails on the first two attempts and succeeds from
the third on. -/
def failTwiceTransport : ℕ → SendOutcome :=
  fun i => if i < 2 then SendOutcome.transportError else SendOutcome.success

/-- A transport that fails on every attempt. -/
def alwaysFailTransport : ℕ → SendOutcome :=
  fun _ => SendOutcome.transportError

/-- The bucket configuration of the matcher-precedence scenario: a
global default bucket list `[1.0]`, then a `Prefix("lat")` override with
the distinct boundary list `[2.0]`. -/
def c4Config : Except BuildError InfluxBuilder :=
  (InfluxBuilder.new.with_buckets [⟨"1"⟩]).bind fun b =>
    b.add_buckets_for_metric (Matcher.Prefix "lat") [⟨"2"⟩]

/-- The builder produced by the single call `with_buckets([1.0])`. -/
def c8Built : InfluxBuilder :=
  { quantiles := InfluxBuilder.new.quantiles
    buckets := some [⟨"1"⟩]
    bucket_overrides := none }

theorem timestamp_nanos_opt_isSome {t : ℤ} (h : TsInRange t) :
    (timestamp_nanos_opt t).isSome := by
  rcases h with ⟨h1, h2⟩
  unfold timestamp_nanos_opt
  rw [if_pos ⟨h1, h2⟩]
  rfl

theorem MetricData.display_isSome {v : MetricData} (h : FieldTsInRange v) :
    (MetricData.display v).isSome := by
  cases v with
  | Timestamp t =>
    obtain ⟨x, hx⟩ := Option.isSome_iff_exists.mp (timestamp_nanos_opt_isSome h)
    simp [MetricData.display, hx]
  | Float f => rfl
  | Integer i => rfl
  | UInteger u => rfl
  | String s => rfl
  | Boolean b => rfl

theorem mapM_option_isSome {α β : Type} (f : α → Option β) :
    ∀ (l : List α), (∀ a ∈ l, (f a).isSome) → (l.mapM f).isSome := by
  intro l
  induction l with
  | nil => intro _; rfl
  | cons a rest ih =>
    intro h
    have ha := h a (List.mem_cons_self a rest)
    obtain ⟨b, hb⟩ := Option.isSome_iff_exists.mp ha
    have hrest := ih fun x hx => h x (List.mem_cons_of_mem a hx)
    obtain ⟨bs, hbs⟩ := Option.isSome_iff_exists.mp hrest
    simp only [List.mapM_cons, hb, hbs, Option.bind_eq_bind, Option.some_bind,
      Option.pure_def, Option.isSome_some]

theorem applyOp_preserves_inv {b b1 : InfluxBuilder} {op : BuilderOp}
    (hinv : BucketsInv b) (h : applyOp b op = .ok b1) : BucketsInv b1 := by
  obtain ⟨hq, hb, ho⟩ := hinv
  cases op with
  | withQuantiles qs =>
    simp only [applyOp, InfluxBuilder.with_quantiles] at h
    by_cases he : qs.isEmpty
    · rw [if_pos he] at h; exact absurd h (by simp)
    · rw [if_neg he] at h
      injection h with h; subst h
      exact ⟨by simpa [parse_quantiles, List.isEmpty_iff] using he, hb, ho⟩
  | withBuckets vs =>
    simp only [applyOp, InfluxBuilder.with_buckets] at h
    by_cases he : vs.isEmpty
    · rw [if_pos he] at h; exact absurd h (by simp)
    · rw [if_neg he] at h
      injection h with h; subst h
      refine ⟨hq, ?_, ho⟩
      intro bs hbs
      injection hbs with hbs; subst hbs
      simpa [List.isEmpty_iff] using he
  | addBucketsForMetric m vs =>
    simp only [applyOp, InfluxBuilder.add_buckets_for_metric] at h
    by_cases he : vs.isEmpty
    · rw [if_pos he] at h; exact absurd h (by simp)
    · rw [if_neg he] at h
      injection h with h; subst h
      have hvs : vs ≠ [] := by simpa [List.isEmpty_iff] using he
      refine ⟨hq, ?_, ?_⟩
      · intro bs hbs; injection hbs with hbs; subst hbs; exact hvs
      · intro ov hov
        simp only [Option.getD_some] at hov
        unfold entryOrInsert at hov
        by_cases hf : ((b.bucket_overrides.getD []).find? fun e => decide (e.1 = m)).isSome
        · rw [if_pos hf] at hov; exact ho ov hov
        · rw [if_neg hf] at hov
          rcases List.mem_append.mp hov with hmem | hmem
          · exact ho ov hmem
          · rcases List.mem_singleton.mp hmem with rfl
            exact hvs

theorem foldlM_applyOp_inv (ops : List BuilderOp) :
    ∀ b0 b : InfluxBuilder, BucketsInv b0 →
      List.foldlM applyOp b0 ops = .ok b → BucketsInv b := by
  induction ops with
  | nil =>
    intro b0 b h0 h
    simp only [List.foldlM_nil] at h
    injection h with h; subst h; exact h0
  | cons op rest ih =>
    intro b0 b h0 h
    simp only [List.foldlM_cons] at h
    cases happ : applyOp b0 op with
    | error e => rw [happ] at h; cases h
    | ok b1 =>
      rw [happ] at h
      exact ih b1 b (applyOp_preserves_inv h0 happ) (by simpa using h)

theorem get_distribution_nonempty {b : InfluxBuilder} (hinv : BucketsInv b)
    (name : String) :
    DistNonempty (b.distribution_builder.get_distribution name) := by
  obtain ⟨hq, hb, ho⟩ := hinv
  unfold DistributionBuilder.get_distribution InfluxBuilder.distribution_builder
  cases hf : (b.bucket_overrides.getD []).find? (fun e => e.1.matches name) with
  | some e =>
    simp only
    exact ho e (List.mem_of_find?_eq_some hf)
  | none =>
    cases hbk : b.buckets with
    | some bs => simpa [Distribution.new_histogram, DistNonempty] using hb bs hbk
    | none => simpa [Distribution.new_summary, DistNonempty] using hq

/-- Claim C4, evaluated at the failing input: after configuring a
global default bucket list `[1.0]` and then a `Prefix("lat")` override
with boundaries `[2.0]`, the matching name `latency_ms` is routed to
the override boundaries as the claim says, but the non-matching name
`other_ms` is routed to `[2.0]` as well, not to the global default
`[1.0]` — `add_buckets_for_metric` (`src/builder.rs` line 120)
overwrites `self.buckets` with the override values. -/
theorem override_clobbers_global_default :
    (∃ b, c4Config = Except.ok b ∧
      b.distribution_builder.get_distribution "latency_ms" =
        Distribution.new_histogram [⟨"2"⟩] ∧
      b.distribution_builder.get_distribution "other_ms" =
        Distribution.new_histogram [⟨"2"⟩] ∧
      b.buckets = some [⟨"2"⟩]) ∧
    Distribution.new_histogram [⟨"2"⟩] ≠ Distribution.new_histogram [⟨"1"⟩] := by
  constructor
  · refine ⟨{ quantiles := InfluxBuilder.new.quantiles
              buckets := some [⟨"2"⟩]
              bucket_overrides := some [(Matcher.Prefix "lat", [⟨"2"⟩])] },
            by rfl, by rfl, by rfl, by rfl⟩
  · decide

/-- Non-emptiness of every list in the freshly constructed builder. -/
theorem builder_new_inv : BucketsInv InfluxBuilder.new := by
  refine ⟨by simp [InfluxBuilder.new, parse_quantiles], ?_, ?_⟩
  · intro bs hbs
    simp [InfluxBuilder.new] at hbs
  · intro ov hov
    simp [InfluxBuilder.new] at hov

/-- Claim C8: the builder rejects an empty quantile list, an empty
global bucket list and an empty per-matcher bucket list with the
configuration-time error `EmptyBucketsOrQuantiles`; consequently every
successfully configured builder satisfies the non-emptiness invariant,
and the distribution handed to the render path for any metric name
always carries a non-empty boundary list or a non-empty quantile set —
empty inputs can never surface at render time. -/
theorem empty_quantiles_or_buckets_rejected :
    (∀ b : InfluxBuilder,
      b.with_quantiles [] = Except.error BuildError.EmptyBucketsOrQuantiles) ∧
    (∀ b : InfluxBuilder,
      b.with_buckets [] = Except.error BuildError.EmptyBucketsOrQuantiles) ∧
    (∀ (b : InfluxBuilder) (m : Matcher),
      b.add_buckets_for_metric m [] = Except.error BuildError.EmptyBucketsOrQuantiles) ∧
    (∀ (ops : List BuilderOp) (b : InfluxBuilder), applyOps ops = Except.ok b →
      BucketsInv b ∧
        ∀ name, DistNonempty (b.distribution_builder.get_distribution name)) := by
  refine ⟨fun b => rfl, fun b => rfl, fun b m => rfl, fun ops b h => ?_⟩
  have hinv := foldlM_applyOp_inv ops InfluxBuilder.new b builder_new_inv h
  exact ⟨hinv, fun name => get_distribution_nonempty hinv name⟩

/-- Witness for claim C8 on the concrete configuration sequence
consisting of the single call `with_buckets([1.0])`. -/
theorem empty_quantiles_or_buckets_rejected_witness :
    applyOps [BuilderOp.withBuckets [⟨"1"⟩]] = Except.ok c8Built ∧
      (BucketsInv c8Built ∧
        ∀ name, DistNonempty (c8Built.distribution_builder.get_distribution name)) :=
  ⟨by rfl, empty_quantiles_or_buckets_rejected.2.2.2
    [BuilderOp.withBuckets [⟨"1"⟩]] c8Built (by rfl)⟩

set_option maxRecDepth 16000 in
/-- Claim C3: encoding the point with name `test =metric`, tags
`{"tag Key1": "tag Value1", "key": "value"}`, fields
`{float: 1.11, "int": -100 (signed), uint: 100 (unsigned),
string: "\"metric\", 🚀", bool: false, t: timestamp}` and point
timestamp 0 produces exactly
`test\ \=metric,key=value,tag\ Key1=tag\ Value1 "int"=-100i,bool=false,float=1.11,string="\"metric\", 🚀",t=1577840461000000000,uint=100i 0`:
tags and fields each sorted lexicographically by key, space/comma/equals
backslash-escaped in the name and in tag keys, tag values and field
keys, integers suffixed with `i`, strings double-quoted with inner
quotes escaped. -/
theorem line_protocol_exactness :
    InfluxMetric.display formatTestMetric =
      some "test\\ \\=metric,key=value,tag\\ Key1=tag\\ Value1 \"int\"=-100i,bool=false,float=1.11,string=\"\\\"metric\\\", 🚀\",t=1577840461000000000,uint=100i 0" := by
  rfl

/-- Counterexample to claim C7 as stated: the codec is not total in the
point timestamp.  At the chrono-representable instant `2 ^ 63` ns
(year 2262) the encoder panics, because `Display for InfluxMetric`
calls `timestamp_nanos_opt().unwrap()` (`src/data.rs` line 156). -/
theorem codec_panics_on_far_future_timestamp :
    InfluxMetric.display farFutureMetric = none := by
  rfl

/-- Claim C7, amended: the codec is total over the supported value
variants provided every timestamp it must render fits in `i64`
nanoseconds: for every `InfluxMetric` whose fields are any of the
`MetricData` variants, if the point timestamp and the value of every
`Timestamp` field lie in the `i64`-nanosecond range, encoding succeeds
(returns a line, never panics). -/
theorem codec_total_on_i64_timestamps (m : InfluxMetric)
    (hts : TsInRange m.timestamp)
    (hfields : ∀ kv ∈ m.fields, FieldTsInRange kv.2) :
    ∃ s, InfluxMetric.display m = some s := by
  have hsorted : ∀ kv ∈ sortByKey m.fields, FieldTsInRange kv.2 := by
    intro kv hkv
    exact hfields kv ((List.perm_insertionSort _ m.fields).mem_iff.mp hkv)
  have hmap : ((sortByKey m.fields).mapM fun kv =>
      (MetricData.display kv.2).bind fun v =>
        some (escape_string kv.1 ++ "=" ++ v)).isSome := by
    apply mapM_option_isSome
    intro kv hkv
    obtain ⟨v, hv⟩ := Option.isSome_iff_exists.mp
      (MetricData.display_isSome (hsorted kv hkv))
    simp [hv]
  obtain ⟨entries, hentries⟩ := Option.isSome_iff_exists.mp hmap
  obtain ⟨ts, hts'⟩ := Option.isSome_iff_exists.mp (timestamp_nanos_opt_isSome hts)
  refine Option.isSome_iff_exists.mp ?_
  unfold InfluxMetric.display
  simp only [Option.bind_eq_bind, Option.pure_def]
  rw [hentries]
  simp only [Option.some_bind]
  rw [hts']
  simp only [Option.some_bind, Option.isSome_some]

/-- Claim C1, evaluated at the failing input: append one sample to a
histogram cell and render twice with no appends in between.  Because
`record_samples` reads the cell with `AtomicBucket::data_with`
(`src/registry.rs` line 64) instead of draining it, after the first
render the cell still holds the sample (it is not empty as the claim
states), and the second render feeds the same sample into the
distribution again instead of feeding nothing. -/
theorem histogram_cell_not_drained_on_render :
    (((⟨[]⟩ : AtomicBucketInstant).record ⟨"1"⟩ 5).record_samples
        (Distribution.new_summary [⟨"0.5"⟩])).2.inner = [(⟨"1"⟩, 5)] ∧
    ((((⟨[]⟩ : AtomicBucketInstant).record ⟨"1"⟩ 5).record_samples
        (Distribution.new_summary [⟨"0.5"⟩])).2.record_samples
        (Distribution.new_summary [⟨"0.5"⟩])).1 =
      Distribution.Summary [⟨"0.5"⟩] [(⟨"1"⟩, 5)] := by
  decide

/-- Looking a key up right after inserting it yields the inserted
value, whatever the map held before. -/
theorem hmGet_hmInsert_self {α : Type} (l : List (String × α)) (k : String) (v : α) :
    hmGet (hmInsert l k v) k = some v := by
  induction l with
  | nil => simp [hmInsert, hmGet]
  | cons kv rest ih =>
    by_cases h : kv.1 = k
    · simp [hmInsert, hmGet, h]
    · simp [hmInsert, hmGet, h, ih]

/-- Counterexample to claim C6 as stated: with the global tag
`k = global` and the single unprefixed per-call label `k = local`,
`parse_labels` produces the tag `k = local` — the unprefixed per-call
label overrides the colliding global tag (`src/recorder.rs` line 335
inserts it into the tag map on top of the global value), whereas the
claim says the global context wins over an implicit tag. -/
theorem implicit_label_overrides_global_tag :
    parse_labels [("k", "global")] [] [("k", "local")] = ([("k", "local")], []) ∧
      ("local" : String) ≠ "global" := by
  constructor
  · rfl
  · decide

/-- Claim C6, amended: per-call labels always take precedence over the
global context — an explicit `tag:`/`field:`-prefixed label overrides
the global tag/field with the stripped key, and an unprefixed
(implicit-tag) label likewise overrides a global tag whose key
collides; the global context only supplies keys the per-call labels do
not set. -/
theorem label_precedence_per_call_over_global
    (global_tags : List (String × String))
    (global_fields : List (String × MetricData)) (k v : String)
    (hf : charsPre "field:".data k.data = false)
    (ht : charsPre "tag:".data k.data = false) :
    hmGet (parse_labels global_tags global_fields [("tag:" ++ k, v)]).1 k = some v ∧
    hmGet (parse_labels global_tags global_fields [("field:" ++ k, v)]).2 k =
      some (MetricData.String v) ∧
    hmGet (parse_labels global_tags global_fields [(k, v)]).1 k = some v := by
  refine ⟨?_, ?_, ?_⟩
  · have hdata : ("tag:" ++ k).data = 't' :: 'a' :: 'g' :: ':' :: k.data := by
      simp [String.data_append]
    have hnotf : charsPre "field:".data ("tag:" ++ k).data = false := by
      rw [hdata]
      simp [charsPre]
    have htag : charsPre "tag:".data ("tag:" ++ k).data = true := by
      rw [hdata]
      simp [charsPre]
    simp only [parse_labels, List.foldl_cons, List.foldl_nil, hnotf, htag,
      Bool.false_eq_true, if_false, if_true]
    rw [hdata]
    simpa using hmGet_hmInsert_self global_tags k v
  · have hdata : ("field:" ++ k).data = 'f' :: 'i' :: 'e' :: 'l' :: 'd' :: ':' :: k.data := by
      simp [String.data_append]
    have hfld : charsPre "field:".data ("field:" ++ k).data = true := by
      rw [hdata]
      simp [charsPre]
    simp only [parse_labels, List.foldl_cons, List.foldl_nil, hfld, if_true]
    rw [hdata]
    simpa using hmGet_hmInsert_self global_fields k (MetricData.String v)
  · simp only [parse_labels, List.foldl_cons, List.foldl_nil, hf, ht,
      Bool.false_eq_true, if_false]
    exact hmGet_hmInsert_self global_tags k v

/-- Witness for the amended claim C6 at the key `x` colliding with a
global tag `x = g` and a global field `x = 0`. -/
theorem label_precedence_per_call_over_global_witness :
    (charsPre "field:".data "x".data = false ∧
      charsPre "tag:".data "x".data = false) ∧
    (hmGet (parse_labels [("x", "g")] [("x", MetricData.Integer 0)]
        [("tag:" ++ "x", "y")]).1 "x" = some "y" ∧
      hmGet (parse_labels [("x", "g")] [("x", MetricData.Integer 0)]
        [("field:" ++ "x", "y")]).2 "x" = some (MetricData.String "y") ∧
      hmGet (parse_labels [("x", "g")] [("x", MetricData.Integer 0)]
        [("x", "y")]).1 "x" = some "y") :=
  ⟨⟨by decide, by decide⟩,
    label_precedence_per_call_over_global [("x", "g")] [("x", MetricData.Integer 0)]
      "x" "y" (by decide) (by decide)⟩

/-- Claim C2, evaluated at the two claimed transports on a non-empty
render: a transport failing twice and then succeeding produces exactly
3 attempts and exactly one delivered batch, and a transport failing on
every attempt produces 4 attempts (the initial one plus the three
bounded retries), delivers nothing and logs a terminal failure — but
in both cases the registry is cleared zero times, not once after the
success: no branch of `InfluxHttpExporter::write` (`src/http.rs` lines
70-123) calls `handle.clear()`. -/
theorem http_write_retries_but_never_clears :
    InfluxHttpExporter.write (1, "m value=1i 0") failTwiceTransport =
      { attempts := 3, delivered := ["m value=1i 0"], cleared := 0
        terminalFailureLogged := false } ∧
    InfluxHttpExporter.write (1, "m value=1i 0") alwaysFailTransport =
      { attempts := 4, delivered := [], cleared := 0
        terminalFailureLogged := true } := by
  exact ⟨rfl, rfl⟩

/-- Each loop iteration performs exactly one `write()` call, whatever
the outcomes were. -/
theorem loopTrace_write_count (outcomes : List Bool) :
    (loopTrace outcomes).countP isWriteCall = outcomes.length := by
  induction outcomes with
  | nil => rfl
  | cons o rest ih =>
    cases o <;>
      simp [loopTrace, isWriteCall, List.countP_cons, List.countP_append, ih]

/-- Each failing `write()` is logged exactly once. -/
theorem loopTrace_log_count (outcomes : List Bool) :
    (loopTrace outcomes).countP isWriteFailureLog = outcomes.countP (fun b => !b) := by
  induction outcomes with
  | nil => rfl
  | cons o rest ih =>
    cases o <;>
      simp [loopTrace, isWriteFailureLog, List.countP_cons, List.countP_append, ih]

/-- Claim C9: in `run(interval)` the first tick of the newly created
interval timer is consumed and discarded, so the first `write()` only
happens after the second tick, i.e. after one full period; every loop
iteration attempts exactly one `write()` whatever earlier outcomes
were — a failure is logged (exactly one log per failure) and never
terminates the loop, so the trace performs one `write()` per tick after
the first. -/
theorem run_discards_first_tick_and_survives_write_failures
    (outcomes : List Bool) (o : Bool) (rest : List Bool)
    (h : outcomes = o :: rest) :
    InfluxExporter.run outcomes =
      RunEvent.tick :: RunEvent.tick :: RunEvent.writeCall o ::
        ((if o then [] else [RunEvent.logWriteError]) ++ loopTrace rest) ∧
    (InfluxExporter.run outcomes).countP isWriteCall = outcomes.length ∧
    (InfluxExporter.run outcomes).countP isWriteFailureLog =
      outcomes.countP (fun b => !b) := by
  subst h
  refine ⟨rfl, ?_, ?_⟩
  · simp [InfluxExporter.run, List.countP_cons, isWriteCall, loopTrace_write_count]
  · simp [InfluxExporter.run, List.countP_cons, isWriteFailureLog, loopTrace_log_count]

/-- Witness for claim C9 on the concrete outcome prefix
`[failure, success]`. -/
theorem run_discards_first_tick_witness :
    ([false, true] : List Bool) = false :: [true] ∧
    (InfluxExporter.run [false, true] =
      RunEvent.tick :: RunEvent.tick :: RunEvent.writeCall false ::
        ((if false then [] else [RunEvent.logWriteError]) ++ loopTrace [true]) ∧
    (InfluxExporter.run [false, true]).countP isWriteCall =
      ([false, true] : List Bool).length ∧
    (InfluxExporter.run [false, true]).countP isWriteFailureLog =
      ([false, true] : List Bool).countP (fun b => !b)) :=
  ⟨rfl, run_discards_first_tick_and_survives_write_failures [false, true] false [true] rfl⟩

/-- Unfolding `joinSep` at a cons cell with a non-empty tail. -/
theorem joinSep_cons_ne (sep s : String) (rest : List String) (h : rest ≠ []) :
    joinSep sep (s :: rest) = s ++ sep ++ joinSep sep rest := by
  cases rest with
  | nil => exact absurd rfl h
  | cons c cs => rfl

/-- Concatenating two separator-joined blocks with nothing in between
merges the last element of the first block with the first element of
the second. -/
theorem joinSep_concat_split (sep x y : String) (b : List String) :
    ∀ a : List String,
      joinSep sep (a ++ [x]) ++ joinSep sep (y :: b) =
        joinSep sep (a ++ (x ++ y) :: b) := by
  intro a
  induction a with
  | nil =>
    cases b with
    | nil => simp [joinSep]
    | cons c cs => simp [joinSep, String.append_assoc]
  | cons z a2 ih =>
    have hne1 : (a2 ++ [x] : List String) ≠ [] := by simp
    have hne2 : (a2 ++ (x ++ y) :: b : List String) ≠ [] := by simp
    rw [List.cons_append, List.cons_append, joinSep_cons_ne sep z _ hne1,
      joinSep_cons_ne sep z _ hne2, ← ih]
    simp [String.append_assoc]

/-- Claim C10: `render()` joins the sorted encoded lines with a single
newline and no trailing newline, the file sink appends that text
verbatim, and therefore two consecutive non-empty file-sink `write()`
calls leave the last line of the first window and the first line of the
second window concatenated in the byte stream with no separator — the
combined stream is the separator-join in which those two lines have
fused into one. -/
theorem render_text_concatenates_across_windows
    (out : String) (l1 l2 : List String) (h1 : l1 ≠ []) (h2 : l2 ≠ []) :
    InfluxFileExporter.write (InfluxFileExporter.write out (render_join l1))
        (render_join l2) =
      out ++ joinSep "\n" (sortedLines l1) ++ joinSep "\n" (sortedLines l2) ∧
    ∃ (a : List String) (x y : String) (b : List String),
      sortedLines l1 = a ++ [x] ∧ sortedLines l2 = y :: b ∧
      joinSep "\n" (sortedLines l1) ++ joinSep "\n" (sortedLines l2) =
        joinSep "\n" (a ++ (x ++ y) :: b) := by
  have hlen1 : 0 < l1.length := List.length_pos.mpr h1
  have hlen2 : 0 < l2.length := List.length_pos.mpr h2
  constructor
  · simp [InfluxFileExporter.write, render_join, hlen1, hlen2, String.append_assoc]
  · have hs1 : sortedLines l1 ≠ [] := by
      intro hnil
      have hperm := (List.perm_insertionSort
        (fun a b => charsLe a.data b.data = true) l1).length_eq
      unfold sortedLines at hnil
      rw [hnil] at hperm
      simp at hperm
      omega
    have hs2 : sortedLines l2 ≠ [] := by
      intro hnil
      have hperm := (List.perm_insertionSort
        (fun a b => charsLe a.data b.data = true) l2).length_eq
      unfold sortedLines at hnil
      rw [hnil] at hperm
      simp at hperm
      omega
    rcases List.eq_nil_or_concat (sortedLines l1) with hnil | ⟨a, x, hax⟩
    · exact absurd hnil hs1
    rw [List.concat_eq_append] at hax
    rcases hyb : sortedLines l2 with _ | ⟨y, b⟩
    · exact absurd hyb hs2
    refine ⟨a, x, y, b, hax, rfl, ?_⟩
    rw [hax, joinSep_concat_split "\n" x y b a]

/-- Witness for claim C10 on the concrete windows `["b", "a"]` and
`["c"]` written to an empty stream. -/
theorem render_text_concatenates_across_windows_witness :
    ((["b", "a"] : List String) ≠ [] ∧ (["c"] : List String) ≠ []) ∧
    (InfluxFileExporter.write (InfluxFileExporter.write "" (render_join ["b", "a"]))
        (render_join ["c"]) =
      "" ++ joinSep "\n" (sortedLines ["b", "a"]) ++ joinSep "\n" (sortedLines ["c"]) ∧
    ∃ (a : List String) (x y : String) (b : List String),
      sortedLines ["b", "a"] = a ++ [x] ∧ sortedLines ["c"] = y :: b ∧
      joinSep "\n" (sortedLines ["b", "a"]) ++ joinSep "\n" (sortedLines ["c"]) =
        joinSep "\n" (a ++ (x ++ y) :: b)) :=
  ⟨⟨by decide, by decide⟩,
    render_text_concatenates_across_windows "" ["b", "a"] ["c"]
      (by decide) (by decide)⟩

/-- Every key listed by `dedupKeys` is a key of some sample in the
input list. -/
theorem mem_dedupKeys_imp :
    ∀ (n : ℕ) (l : List (Key × MetricData)), l.length ≤ n →
      ∀ k ∈ dedupKeys l, ∃ v, (k, v) ∈ l := by
  intro n
  induction n with
  | zero =>
    intro l hl k hk
    cases l with
    | nil => simp [dedupKeys] at hk
    | cons kv rest => simp at hl
  | succ n ih =>
    intro l hl k hk
    cases l with
    | nil => simp [dedupKeys] at hk
    | cons kv rest =>
      simp only [List.length_cons] at hl
      rw [dedupKeys] at hk
      rcases List.mem_cons.mp hk with rfl | hk2
      · exact ⟨kv.2, List.mem_cons_self _ _⟩
      · have hlen : (rest.filter fun x => decide (x.1 ≠ kv.1)).length ≤ n :=
          le_trans (List.length_filter_le _ _) (by omega)
        obtain ⟨v, hv⟩ := ih _ hlen k hk2
        exact ⟨v, List.mem_cons_of_mem _ (List.mem_of_mem_filter hv)⟩

/-- The key list produced by `dedupKeys` has no duplicates. -/
theorem dedupKeys_nodup_aux :
    ∀ (n : ℕ) (l : List (Key × MetricData)), l.length ≤ n → (dedupKeys l).Nodup := by
  intro n
  induction n with
  | zero =>
    intro l hl
    cases l with
    | nil => simp [dedupKeys]
    | cons kv rest => simp at hl
  | succ n ih =>
    intro l hl
    cases l with
    | nil => simp [dedupKeys]
    | cons kv rest =>
      simp only [List.length_cons] at hl
      have hlen : (rest.filter fun x => decide (x.1 ≠ kv.1)).length ≤ n :=
        le_trans (List.length_filter_le _ _) (by omega)
      rw [dedupKeys, List.nodup_cons]
      refine ⟨?_, ih _ hlen⟩
      intro hmem
      obtain ⟨v, hv⟩ := mem_dedupKeys_imp n _ hlen kv.1 hmem
      have := List.of_mem_filter hv
      simp at this

theorem dedupKeys_nodup (l : List (Key × MetricData)) : (dedupKeys l).Nodup :=
  dedupKeys_nodup_aux l.length l le_rfl

/-- The indices attached by `enumFrom` are pairwise distinct. -/
theorem enumFrom_pairwise_fst {α : Type} (l : List α) :
    ∀ n : ℕ, List.Pairwise (fun a b => a.1 ≠ b.1) (List.enumFrom n l) := by
  induction l with
  | nil => intro n; constructor
  | cons x rest ih =>
    intro n
    rw [List.enumFrom]
    constructor
    · intro b hb
      rcases b with ⟨i, y⟩
      have h := List.mem_enumFrom hb
      have : n + 1 ≤ i := h.1
      simp only [ne_eq]
      omega
    · exact ih (n + 1)

/-- Within one counter/gauge render batch, points coming from one
registry key never share a timestamp: per-key duplicates (possible only
via the zero-registration point of a brand-new counter) are pushed back
by one millisecond per duplicate index, and distinct keys live in
distinct groups. -/
theorem render_points_no_ts_collision (s : RecorderState)
    (global_tags : List (String × String))
    (global_fields : List (String × MetricData)) (now : Key → ℤ) :
    SameKeyDistinctTs (render_points s global_tags global_fields now) := by
  unfold SameKeyDistinctTs render_points
  rw [show ∀ (L : List (Key × List MetricData))
      (f : Key × List MetricData → List (Key × InfluxMetric)),
      L.flatMap f = (L.map f).flatten from fun L f => rfl]
  rw [List.pairwise_flatten]
  constructor
  · intro blk hblk
    obtain ⟨g, hg, rfl⟩ := List.mem_map.mp hblk
    rw [List.pairwise_map]
    refine (enumFrom_pairwise_fst g.2.reverse 0).imp ?_
    intro a b hne
    intro _ heq
    dsimp only at heq
    exact hne (by omega)
  · unfold groupMapBy
    rw [List.pairwise_map, List.pairwise_map]
    refine (dedupKeys_nodup _).imp ?_
    intro k1 k2 hne x hx y hy
    obtain ⟨iv1, _, rfl⟩ := List.mem_map.mp hx
    obtain ⟨iv2, _, rfl⟩ := List.mem_map.mp hy
    intro heq
    exact absurd heq hne

/-- Claim C5: a counter key registered for the first time and then
incremented by 2 renders, in the same window, exactly the two points
`value = 2i` (unsigned, at `now`) and `value = 0i` (the signed
zero-registration point, one millisecond older); a subsequent render
with no new registration emits only the single running-total point
`value = 2i`; the two timestamps of the first window are strictly
ordered; and in any counter/gauge render batch no two points sharing
the same key carry an identical timestamp. -/
theorem zero_registration_renders_two_points
    (k : Key) (gt : List (String × String)) (gf : List (String × MetricData))
    (now1 now2 : Key → ℤ) :
    ((render_counter_gauge (counter_increment (register_counter RecorderState.forNew k) k 2)
        gt gf now1).1.map fun p => (p.1, hmGet p.2.fields "value", p.2.timestamp)) =
      [(k, some (MetricData.UInteger 2), now1 k),
       (k, some (MetricData.Integer 0), now1 k - 1000000)] ∧
    ((render_counter_gauge
        (render_counter_gauge (counter_increment (register_counter RecorderState.forNew k) k 2)
          gt gf now1).2
        gt gf now2).1.map fun p => (p.1, hmGet p.2.fields "value", p.2.timestamp)) =
      [(k, some (MetricData.UInteger 2), now2 k)] ∧
    now1 k - 1000000 < now1 k ∧
    ∀ (s : RecorderState) (gt2 : List (String × String))
      (gf2 : List (String × MetricData)) (now : Key → ℤ),
      SameKeyDistinctTs (render_counter_gauge s gt2 gf2 now).1 := by
  have hs1 : register_counter RecorderState.forNew k =
      { counters := [(k, 0)], gauges := [], counter_registrations := [k] } := by
    simp [register_counter, RecorderState.forNew]
  have hmod : (0 + 2) % 2 ^ 64 = 2 := by norm_num
  have hs2 : counter_increment
      { counters := [(k, 0)], gauges := [], counter_registrations := [k] } k 2 =
      { counters := [(k, 2)], gauges := [], counter_registrations := [k] } := by
    simp [counter_increment, hmod]
  rw [hs1, hs2]
  refine ⟨?_, ?_, by omega, fun s gt2 gf2 now =>
    render_points_no_ts_collision s gt2 gf2 now⟩
  · simp [render_counter_gauge, render_points, groupMapBy, dedupKeys,
      List.enum, List.enumFrom, hmGet_hmInsert_self]
  · simp [render_counter_gauge, render_points, groupMapBy, dedupKeys,
      List.enum, List.enumFrom, hmGet_hmInsert_self]

/-- Witness for the amended claim C7 at a concrete point exercising all
six `MetricData` variants. -/
theorem codec_total_on_i64_timestamps_witness :
    TsInRange (7 : ℤ) ∧
      ∃ s, InfluxMetric.display
        { name := "w"
          timestamp := 7
          fields :=
            [ ("a", MetricData.Float ⟨"2.5"⟩)
            , ("b", MetricData.Integer (-3))
            , ("c", MetricData.UInteger 4)
            , ("d", MetricData.String "x")
            , ("e", MetricData.Boolean true)
            , ("f", MetricData.Timestamp 9) ]
          tags := [("t", "v")] } = some s :=
  ⟨by decide, codec_total_on_i64_timestamps _ (by decide) (by decide)⟩

end MetricsExporterInflux
